import Mathlib

/-!
Shallow embedding of the Portfolio Performance & Risk Analytics Engine
(`app/core/services` of the portfolia repository) and proofs about it.

Numeric values (Python `Decimal` / `float`) are modelled as rationals `ℚ`;
dates are modelled either as calendar dates (year/month/day, for the
period-token arithmetic of `PeriodType.get_start_date`) or as integer day
numbers (for the day-by-day valuation walk and the return calculators).
Operations whose numeric kernel is irrational (`x ** y`, `sqrt`) or an
external library call (`pyxirr.xirr`) are taken as explicit function
parameters of the embedding, so every definition stays computable and the
control flow around those kernels is embedded exactly.
-/

namespace Portfolia

/-! ## Transactions

The column set mirrors the `Transaction` model (asset identifier, type,
quantity, price, total amount, date).  The enum module itself
(`models/transaction.py`) is not part of the analysed sources; its value
set is modelled from the spec data model: type ∈ \x7bBUY, SELL\x7d. -/

/-- Modelled from the spec: `TransactionType` has exactly the members
`BUY` and `SELL` (spec §3 data model; `models/transaction.py` is absent
from the analysed tree, and every service branches only on these two). -/
inductive TxnType where
  | buy
  | sell
deriving DecidableEq, Repr

/-- A transaction row, with the date given as an integer day number. -/
structure Txn where
  assetId : ℕ
  date : ℤ
  ttype : TxnType
  quantity : ℚ
  price : ℚ
  totalAmount : ℚ
deriving DecidableEq, Repr

/-! ## FIFO realized P&L (`PortfolioService._calculate_realized_pnl`) -/

/-- One open BUY lot as kept in the `remaining_buys` working list:
remaining quantity and remaining total cost. -/
structure BuyLot where
  qty : ℚ
  totalAmount : ℚ
deriving DecidableEq, Repr

/-- A SELL leg: quantity sold and unit sale price. -/
structure SellTx where
  qty : ℚ
  price : ℚ
deriving DecidableEq, Repr

/-- Accumulated state of the FIFO replay: open lots (oldest first),
cumulative realized P&L, cumulative consumed cost basis. -/
structure FifoState where
  lots : List BuyLot
  pnl : ℚ
  costSold : ℚ
deriving DecidableEq, Repr

/-- The inner `while sell_quantity > 0 and remaining_buys:` loop of
`_calculate_realized_pnl`: match `sq` units sold at price `sp` against the
oldest open lots.  A lot with non-positive remaining quantity is dropped;
otherwise `m = min(sq, lot.qty)` units are matched, the consumed cost is
`(m / lot.qty) * lot.totalAmount`, and quantity and cost of the lot shrink
in proportion.  (When the lot survives, `m = sq` and the loop exits.) -/
def sellAgainstLots (sp : ℚ) : ℚ → List BuyLot → ℚ → ℚ → FifoState
  | _, [], pnl, costSold => ⟨[], pnl, costSold⟩
  | sq, lot :: rest, pnl, costSold =>
    if sq ≤ 0 then ⟨lot :: rest, pnl, costSold⟩
    else if lot.qty ≤ 0 then sellAgainstLots sp sq rest pnl costSold
    else if lot.qty - min sq lot.qty ≤ 0 then
      sellAgainstLots sp (sq - min sq lot.qty) rest
        (pnl + (min sq lot.qty * sp - min sq lot.qty / lot.qty * lot.totalAmount))
        (costSold + min sq lot.qty / lot.qty * lot.totalAmount)
    else
      ⟨⟨lot.qty - min sq lot.qty,
        lot.totalAmount - min sq lot.qty / lot.qty * lot.totalAmount⟩ :: rest,
       pnl + (min sq lot.qty * sp - min sq lot.qty / lot.qty * lot.totalAmount),
       costSold + min sq lot.qty / lot.qty * lot.totalAmount⟩

/-- The outer `for sell in sell_transactions:` loop. -/
def processSells (sells : List SellTx) (st : FifoState) : FifoState :=
  sells.foldl (fun st s => sellAgainstLots s.price s.qty st.lots st.pnl st.costSold) st

/-- `_calculate_realized_pnl`: build the `remaining_buys` list from the
date-ordered BUY transactions, run every date-ordered SELL through the
FIFO match, and return `(total_realized_pnl, realized_pnl_percent)`.
With no sells or no buys the result is `(0, 0)`. -/
def calcRealizedPnl (buys : List BuyLot) (sells : List SellTx) : ℚ × ℚ :=
  if sells = [] then (0, 0)
  else if buys = [] then (0, 0)
  else
    let st := processSells sells ⟨buys, 0, 0⟩
    let pct := if 0 < st.costSold then st.pnl / st.costSold * 100 else 0
    (st.pnl, pct)

/-- Total cost basis still sitting in the open lots. -/
def remainingCost (lots : List BuyLot) : ℚ :=
  (lots.map BuyLot.totalAmount).sum

/-- Final FIFO state of `_calculate_realized_pnl` (the working data the
function holds when it returns; exposed so the remaining holding's cost
basis can be stated). -/
def fifoFinalState (buys : List BuyLot) (sells : List SellTx) : FifoState :=
  processSells sells ⟨buys, 0, 0⟩

/-! ## CAGR (`PortfolioCalculationService._calculate_cagr`)

`pw` models Python's float `**`; the service only applies it in the
annualization branch, so the surrounding control flow is exact. `days` is
`(end_date - start_date).days` for a bounded period and
`(end_date - first_transaction_date).days` from inception; `beginningValue`
is the portfolio valuation at the period start (`_get_portfolio_value_at_date`).
The Python function returns percentages, and so does this embedding. -/
def calcCagr (pw : ℚ → ℚ → ℚ) (beginningValue currentValue : ℚ) (days : ℤ) :
    Option ℚ :=
  if beginningValue ≤ 0 then none
  else if currentValue < 0 then some (-100)
  else
    let years : ℚ := (days : ℚ) / (1461 / 4)
    if years ≤ 0 then some 0
    else
      let totalReturn := currentValue / beginningValue - 1
      if 1 < years then some ((pw (1 + totalReturn) (1 / years) - 1) * 100)
      else some (totalReturn * 100)

/-! ## XIRR (`_calculate_xirr`, `_calculate_benchmark_xirr`)

The iterative root-finder is the external `pyxirr.xirr` call, modelled as
an explicit `solver` parameter returning `none` on non-convergence. -/

/-- Signed cash-flow amount of a transaction: BUY is an outflow,
SELL an inflow. -/
def txnFlow (t : Txn) : ℚ :=
  match t.ttype with
  | .buy => -t.totalAmount
  | .sell => t.totalAmount

/-- The `(dates, amounts)` pair list assembled by `_calculate_xirr`:
optional initial-valuation outflow for a bounded period, signed amounts of
the transactions in the period, and the terminal valuation inflow. -/
def buildXirrFlows (txns : List Txn) (initialValue : ℚ) (startDate : Option ℤ)
    (endDate : ℤ) (currentValue : ℚ) : List (ℤ × ℚ) :=
  let head : List (ℤ × ℚ) :=
    match startDate with
    | some s => if 0 < initialValue then [(s, -initialValue)] else []
    | none => []
  let periodTxns :=
    match startDate with
    | some s => txns.filter (fun (t : Txn) => decide (s ≤ t.date))
    | none => txns
  head ++ periodTxns.map (fun (t : Txn) => (t.date, txnFlow t)) ++
    [(endDate, currentValue)]

/-- `any(a > 0 for a in amounts)`. -/
def hasPositive (flows : List (ℤ × ℚ)) : Bool :=
  flows.any (fun f => 0 < f.2)

/-- `any(a < 0 for a in amounts)`. -/
def hasNegative (flows : List (ℤ × ℚ)) : Bool :=
  flows.any (fun f => f.2 < 0)

/-- `_calculate_xirr`: build the flow list, return `none` when it has fewer
than two entries, when the amounts are not mixed-sign, or when the solver
fails; otherwise the solved rate as a percentage. -/
def calcXirr (solver : List (ℤ × ℚ) → Option ℚ) (txns : List Txn)
    (initialValue : ℚ) (startDate : Option ℤ) (endDate : ℤ)
    (currentValue : ℚ) : Option ℚ :=
  let flows := buildXirrFlows txns initialValue startDate endDate currentValue
  if flows.length < 2 then none
  else if !(hasPositive flows && hasNegative flows) then none
  else (solver flows).map (fun r => r * 100)

/-- `_calculate_benchmark_xirr`: the given cash flows plus the terminal
valuation inflow, with the same degraded-path guards. -/
def calcBenchmarkXirr (solver : List (ℤ × ℚ) → Option ℚ)
    (cashFlows : List (ℤ × ℚ)) (endDate : ℤ) (currentValue : ℚ) : Option ℚ :=
  let flows := cashFlows ++ [(endDate, currentValue)]
  if flows.length < 2 then none
  else if !(hasPositive flows && hasNegative flows) then none
  else (solver flows).map (fun r => r * 100)

/-! ## TWR (`_calculate_twr` and helpers)

`valueAt` models `_get_portfolio_value_at_date` (a total float-valued
lookup that values the holdings at a date using fetched prices). -/

/-- Insert into a sorted list of day numbers (ascending). -/
def insertSorted (x : ℤ) : List ℤ → List ℤ
  | [] => [x]
  | y :: ys => if x ≤ y then x :: y :: ys else y :: insertSorted x ys

/-- Python's `sorted(...)` on a list of day numbers (insertion sort; on the
deduplicated lists it is applied to, any correct sort yields the same
ascending list of distinct values). -/
def sortDates (l : List ℤ) : List ℤ :=
  l.foldr insertSorted []

/-- `_get_cash_flow_dates`: transaction dates strictly inside the period,
deduplicated and sorted. -/
def getCashFlowDates (txns : List Txn) (startDate : Option ℤ) (endDate : ℤ) :
    List ℤ :=
  let ds := (txns.filter (fun t =>
      (match startDate with
       | some s => decide (s < t.date)
       | none => true) && decide (t.date < endDate))).map Txn.date
  sortDates ds.dedup

/-- `_create_sub_periods`: consecutive pairs of the sorted, deduplicated
boundary dates.  Only called with a non-empty `cashFlowDates` list, whose
head stands in for `cash_flow_dates[0]` when the period is inception. -/
def createSubPeriods (startDate : Option ℤ) (endDate : ℤ)
    (cashFlowDates : List ℤ) : List (ℤ × ℤ) :=
  let actualStart := match startDate with
    | some s => s
    | none => cashFlowDates.headD 0
  let dates := sortDates (actualStart :: cashFlowDates ++ [endDate]).dedup
  (dates.zip dates.tail).filter (fun p => p.1 ≠ p.2)

/-- `_get_cash_flows_at_date`: net signed flow of the transactions dated
exactly `d` (BUY positive, SELL negative). -/
def cashFlowsAtDate (txns : List Txn) (d : ℤ) : ℚ :=
  (txns.filter (fun t => t.date = d)).foldl
    (fun acc t =>
      match t.ttype with
      | .buy => acc + t.totalAmount
      | .sell => acc - t.totalAmount) 0

/-- `_calculate_sub_period_return`: `end / (startBefore + flowsAtStart) - 1`,
with a zero-return for new money into an empty portfolio and `none` when
the adjusted start value is non-positive without an inflow. -/
def subPeriodReturn (valueAt : ℤ → ℚ) (txns : List Txn) (ps pe : ℤ) :
    Option ℚ :=
  let startValue := valueAt ps + cashFlowsAtDate txns ps
  if startValue ≤ 0 then
    if 0 < cashFlowsAtDate txns ps then some 0 else none
  else some (valueAt pe / startValue - 1)

/-- `_calculate_twr_with_cash_flows`: sub-period returns (failed
sub-periods skipped) linked geometrically, as a percentage. -/
def twrWithCashFlows (valueAt : ℤ → ℚ) (txns : List Txn)
    (startDate : Option ℤ) (endDate : ℤ) (cashFlowDates : List ℤ) :
    Option ℚ :=
  let subs := createSubPeriods startDate endDate cashFlowDates
  if subs = [] then none
  else
    let rets := subs.filterMap (fun p => subPeriodReturn valueAt txns p.1 p.2)
    if rets = [] then none
    else some ((rets.foldl (fun acc r => acc * (1 + r)) 1 - 1) * 100)

/-- Net invested amount over the whole ledger: total BUY amounts minus
total SELL amounts (`_calculate_inception_twr`'s denominator). -/
def netInvestment (txns : List Txn) : ℚ :=
  ((txns.filter (fun t => t.ttype = TxnType.buy)).map Txn.totalAmount).sum -
    ((txns.filter (fun t => t.ttype = TxnType.sell)).map Txn.totalAmount).sum

/-- `_calculate_inception_twr`: total (non-annualized) return over the net
invested amount, as a percentage. -/
def calcInceptionTwr (txns : List Txn) (currentValue : ℚ) : Option ℚ :=
  if txns = [] then none
  else
    let inv := netInvestment txns
    if inv ≤ 0 then none
    else some ((currentValue / inv - 1) * 100)

/-- `_calculate_twr`: with no intermediate cash-flow dates, the simple
return (bounded period) or the inception total return; otherwise the
geometric sub-period linking. -/
def calcTwr (valueAt : ℤ → ℚ) (txns : List Txn) (currentValue : ℚ)
    (startDate : Option ℤ) (endDate : ℤ) : Option ℚ :=
  let cfd := getCashFlowDates txns startDate endDate
  if cfd = [] then
    match startDate with
    | some s =>
        let initialValue := valueAt s
        if initialValue ≤ 0 then none
        else some ((currentValue / initialValue - 1) * 100)
    | none => calcInceptionTwr txns currentValue
  else twrWithCashFlows valueAt txns startDate endDate cfd

/-! ## Daily valuation history (`_get_portfolio_history`)

`priceOf a d` models `_get_price_for_date` on the fetched series of asset
`a`: the most recent known close on or before day `d`, `none` when there is
none.  Holdings are a total function from asset ids; only ids occurring in
the transaction list can ever hold a non-zero quantity. -/

/-- The `1e-9` dust threshold under which a holding is ignored. -/
def eps : ℚ := 1 / 10 ^ 9

/-- Apply one transaction to the holdings map (`+= quantity` on BUY,
`-= quantity` on SELL). -/
def applyTxnToHoldings (h : ℕ → ℚ) (t : Txn) : ℕ → ℚ :=
  fun a =>
    if a = t.assetId then
      match t.ttype with
      | .buy => h a + t.quantity
      | .sell => h a - t.quantity
    else h a

/-- `_get_holdings_at_date`: replay every transaction dated on or before
`target`, then drop (zero out) any position not exceeding the dust
threshold. -/
def holdingsUpTo (txns : List Txn) (target : ℤ) : ℕ → ℚ :=
  let h := (txns.filter (fun (t : Txn) => decide (t.date ≤ target))).foldl
    applyTxnToHoldings (fun _ => 0)
  fun a => if eps < h a then h a else 0

/-- Distinct asset ids appearing in the ledger. -/
def assetIds (txns : List Txn) : List ℕ :=
  (txns.map Txn.assetId).dedup

/-- One day's portfolio market value: every position above the dust
threshold valued at its looked-up price; `if price:` skips a missing or
zero price. -/
def dayValue (priceOf : ℕ → ℤ → Option ℚ) (ids : List ℕ) (h : ℕ → ℚ)
    (d : ℤ) : ℚ :=
  (ids.map (fun a =>
    if eps < h a then
      match priceOf a d with
      | some p => if p = 0 then 0 else h a * p
      | none => 0
    else 0)).sum

/-- The day-by-day walk of `_get_portfolio_history`: for `n` consecutive
days starting at `d`, apply that day's transactions to the holdings and
emit `(day, value)`. -/
def historyWalk (priceOf : ℕ → ℤ → Option ℚ) (ids : List ℕ)
    (txnsOn : ℤ → List Txn) : ℕ → ℤ → (ℕ → ℚ) → List (ℤ × ℚ)
  | 0, _, _ => []
  | n + 1, d, h =>
    let h' := (txnsOn d).foldl applyTxnToHoldings h
    (d, dayValue priceOf ids h' d) :: historyWalk priceOf ids txnsOn n (d + 1) h'

/-- The period start the walk resolves to: the requested start date, or
the first transaction date (`min?` over the ledger's dates; the `getD 0`
backstop is never reached for a non-empty ledger). -/
def resolvedStart (txns : List Txn) (startDate : Option ℤ) : ℤ :=
  startDate.getD (((txns.map Txn.date).min?).getD 0)

/-- `_get_portfolio_history`: `none` for an empty ledger or an inverted
period, otherwise one `(day, value)` point per calendar day from the
resolved period start (requested start, or the first transaction date) to
`endDate` inclusive. -/
def portfolioHistory (priceOf : ℕ → ℤ → Option ℚ) (txns : List Txn)
    (startDate : Option ℤ) (endDate : ℤ) : Option (List (ℤ × ℚ)) :=
  if txns = [] then none
  else
    if endDate < resolvedStart txns startDate then none
    else
      some (historyWalk priceOf (assetIds txns)
        (fun d => txns.filter (fun (t : Txn) => decide (t.date = d)))
        ((endDate - resolvedStart txns startDate).toNat + 1)
        (resolvedStart txns startDate)
        (holdingsUpTo txns (resolvedStart txns startDate - 1)))

/-! ## Volatility (`_calculate_volatility` at both services)

Both sites return `std(returns) * sqrt(252) * 100`.  To stay inside `ℚ`
the embedding carries the square of that quantity (`variance * 252 * 10⁴`):
both reported numbers are non-negative, so two volatilities are equal (or
different) exactly when their embedded squares are. -/

/-- Sample variance with one delta degree of freedom, the square of the
pandas/numpy `.std()` both services call. -/
def sampleVariance (l : List ℚ) : ℚ :=
  if l.length ≤ 1 then 0
  else
    let n : ℚ := l.length
    let m := l.sum / n
    (l.map (fun x => (x - m) ^ 2)).sum / (n - 1)

/-- `Series.pct_change().dropna()`: `v_t / v_{t-1} - 1` for each
consecutive pair. -/
def pctChangeReturns (values : List ℚ) : List ℚ :=
  (values.zip values.tail).map (fun p => p.2 / p.1 - 1)

/-- Squared volatility reported by
`PortfolioCalculationService._calculate_volatility`: plain `pct_change`
returns of the value series, with no cash-flow adjustment. -/
def calcServiceVolSq (values : List ℚ) : Option ℚ :=
  if values.length < 2 then none
  else
    let rets := pctChangeReturns values
    if rets = [] then some 0
    else some (sampleVariance rets * 252 * 10000)

/-- The cash-flow-adjusted daily return series built by
`PortfolioRiskMetricsService.calculate_portfolio_risk_metrics`:
`value_t / (value_{t-1} + netCashFlow_t) - 1` over `(value, netCashFlow)`
rows, with the non-finite entries of zero-denominator days dropped. -/
def adjustedDailyReturns (hist : List (ℚ × ℚ)) : List ℚ :=
  (hist.zip hist.tail).filterMap (fun p =>
    let denom := p.1.1 + p.2.2
    if denom = 0 then none else some (p.2.1 / denom - 1))

/-- Squared volatility reported by the risk-metrics service for a
`(value, netCashFlow)` history: the adjusted return series must have at
least two entries (otherwise the caller returns the empty result), then
`std * sqrt(252) * 100`, squared. -/
def riskServiceVolSq (hist : List (ℚ × ℚ)) : Option ℚ :=
  let rets := adjustedDailyReturns hist
  if rets.length < 2 then none
  else some (sampleVariance rets * 252 * 10000)

/-! ## Period tokens (`PeriodType.get_start_date`)

The same function appears verbatim in `core/services/utils.py` and in
`portfolio_calculation_service.py`; one embedding covers both.  Month and
year offsets follow `dateutil.relativedelta`: shift the month/year and
clamp the day-of-month to the target month's length. -/

/-- A calendar date (proleptic Gregorian). -/
structure Date where
  year : ℤ
  month : ℕ
  day : ℕ
deriving DecidableEq, Repr

/-- Gregorian leap-year test. -/
def isLeap (y : ℤ) : Bool :=
  y % 4 = 0 && (y % 100 ≠ 0 || y % 400 = 0)

/-- Number of days in a month. -/
def daysInMonth (y : ℤ) (m : ℕ) : ℕ :=
  if m = 2 then (if isLeap y then 29 else 28)
  else if m = 4 ∨ m = 6 ∨ m = 9 ∨ m = 11 then 30
  else 31

/-- `date - relativedelta(months=n)`: shift the month index back by `n`
and clamp the day to the resulting month's length. -/
def subMonths (d : Date) (n : ℕ) : Date :=
  let total : ℤ := d.year * 12 + ((d.month : ℤ) - 1) - (n : ℤ)
  let y := Int.fdiv total 12
  let m : ℕ := (Int.fmod total 12).toNat + 1
  ⟨y, m, min d.day (daysInMonth y m)⟩

/-- `date - relativedelta(years=n)`: same month, year back by `n`, day
clamped (Feb 29 → Feb 28 on a non-leap target year). -/
def subYears (d : Date) (n : ℕ) : Date :=
  ⟨d.year - (n : ℤ), d.month, min d.day (daysInMonth (d.year - (n : ℤ)) d.month)⟩

/-- `PeriodType.get_start_date`: map each supported token to its calendar
start date (`none` inside `.ok` meaning inception / no filter) and raise
`ValueError` on anything else. -/
def getStartDate (period : String) (baseDate : Date) :
    Except String (Option Date) :=
  if period = "3m" then .ok (some (subMonths baseDate 3))
  else if period = "6m" then .ok (some (subMonths baseDate 6))
  else if period = "1y" then .ok (some (subYears baseDate 1))
  else if period = "2y" then .ok (some (subYears baseDate 2))
  else if period = "3y" then .ok (some (subYears baseDate 3))
  else if period = "5y" then .ok (some (subYears baseDate 5))
  else if period = "ytd" then .ok (some ⟨baseDate.year, 1, 1⟩)
  else if period = "inception" then .ok none
  else .error ("Unknown period type: " ++ period)

/-- The eight supported period tokens. -/
def periodTokens : List String :=
  ["3m", "6m", "1y", "2y", "3y", "5y", "ytd", "inception"]

/-- Lexicographic (chronological) strict order on calendar dates. -/
def dateLt (a b : Date) : Bool :=
  decide (a.year < b.year) ||
    (decide (a.year = b.year) &&
      (decide (a.month < b.month) ||
        (decide (a.month = b.month) && decide (a.day < b.day))))

/-- Day number of a civil date (days since 1970-01-01, the standard
`days_from_civil` algorithm); used only for the `.days` fields of the
period-adjustment record. -/
def dayNumber (d : Date) : ℤ :=
  let y : ℤ := if d.month ≤ 2 then d.year - 1 else d.year
  let era : ℤ := (if 0 ≤ y then y else y - 399) / 400
  let yoe : ℤ := y - era * 400
  let mp : ℤ := ((d.month : ℤ) + 9) % 12
  let doy : ℤ := (153 * mp + 2) / 5 + (d.day : ℤ) - 1
  let doe : ℤ := yoe * 365 + yoe / 4 - yoe / 100 + doy
  era * 146097 + doe - 719468

/-- `min(t.transaction_date for t in transactions)` over a list of dates
(callers guarantee non-emptiness). -/
def firstTxnDate (txnDates : List Date) : Date :=
  match txnDates with
  | [] => ⟨0, 1, 1⟩
  | d :: rest => rest.foldl (fun a b => if dateLt b a then b else a) d

/-! ## Performance-result assembly (`calculate_portfolio_performance`,
`calculate_benchmark_performance`)

The per-metric computations (valuation lookups, price fetches, solver
runs) are abstracted as function parameters applied to the *actual* start
date the service settles on; the embedding keeps the exact branch
structure of the assembly: empty-ledger early return, the period
adjustment for young portfolios, the degraded current-value path, and the
`mwr := xirr_value` aliasing. -/

/-- The `period_adjustment` diagnostic attached when a requested period
predates the portfolio's first transaction. -/
structure PeriodAdjustment where
  requestedPeriod : String
  requestedPeriodDays : ℤ
  portfolioAgeDays : ℤ
deriving DecidableEq, Repr

/-- The `metrics` sub-dictionary of a portfolio performance result. -/
structure PerfMetrics where
  cagr : Option ℚ
  xirr : Option ℚ
  twr : Option ℚ
  mwr : Option ℚ
  volatility : Option ℚ
  maxDrawdown : Option ℚ
deriving DecidableEq, Repr

/-- A portfolio performance result (the claim-relevant fields). -/
structure PerfResult where
  period : String
  startDate : Option Date
  adjustment : Option PeriodAdjustment
  metrics : PerfMetrics
  errors : List String
deriving DecidableEq, Repr

/-- All-null metrics. -/
def emptyMetrics : PerfMetrics :=
  ⟨none, none, none, none, none, none⟩

/-- `calculate_portfolio_performance`.  `cagrF`, `xirrF`, `twrF`, `volF`,
`mddF` abstract the metric computations as functions of the actual start
date used; `valueErrors` is the error list from
`get_current_portfolio_value`; `txnDates` are the portfolio's transaction
dates.  Unknown tokens and a missing portfolio surface as `Except.error`
(Python `ValueError`). -/
def calcPortfolioPerformance (cagrF xirrF twrF volF mddF : Option Date → Option ℚ)
    (portfolioFound : Bool) (valueErrors : List String)
    (txnDates : List Date) (period : String) (endDate : Date) :
    Except String PerfResult :=
  match getStartDate period endDate with
  | .error e => .error e
  | .ok startDate =>
  if ¬portfolioFound then
    .error "Portfolio not found or not accessible"
  else if txnDates = [] then
    .ok { period := period, startDate := none, adjustment := none,
          metrics := emptyMetrics,
          errors := ["No transactions found for the specified period or portfolio"] }
  else
    let first := firstTxnDate txnDates
    let adjusted := match startDate with
      | some s => dateLt s first
      | none => false
    let actualPeriod := if adjusted then "inception" else period
    let actualStart := if adjusted then none else startDate
    let adjustment : Option PeriodAdjustment :=
      match startDate with
      | some s =>
          if dateLt s first then
            some ⟨period, dayNumber endDate - dayNumber s,
                  dayNumber endDate - dayNumber first⟩
          else none
      | none => none
    if valueErrors ≠ [] then
      .ok { period := actualPeriod, startDate := actualStart,
            adjustment := adjustment, metrics := emptyMetrics,
            errors := valueErrors }
    else
      .ok { period := actualPeriod, startDate := actualStart,
            adjustment := adjustment,
            metrics := ⟨cagrF actualStart, xirrF actualStart, twrF actualStart,
                        xirrF actualStart, volF actualStart, mddF actualStart⟩,
            errors := [] }

/-- The `metrics` sub-dictionary of a benchmark performance result. -/
structure BenchMetrics where
  cagr : Option ℚ
  xirr : Option ℚ
  twr : Option ℚ
  mwr : Option ℚ
deriving DecidableEq, Repr

/-- A benchmark performance result (the claim-relevant fields). -/
structure BenchResult where
  benchmarkSymbol : String
  period : String
  metrics : BenchMetrics
deriving DecidableEq, Repr

/-- `_empty_benchmark_performance_result`. -/
def emptyBenchResult (symbol period : String) : BenchResult :=
  ⟨symbol, period, ⟨none, none, none, none⟩⟩

/-- `calculate_benchmark_performance`, with cash flows dated by integer
day number and the period start already derived.  `cagrV`/`twrV` abstract
the benchmark CAGR/TWR values; the XIRR leg genuinely runs
`calcBenchmarkXirr` on the period's cash flows, as the service does.  A
missing price series (or any exception in the block) lands on the empty
result. -/
def calcBenchmarkPerformance (symbol : String)
    (solver : List (ℤ × ℚ) → Option ℚ) (cagrV twrV : Option ℚ)
    (priceDataOk : Bool) (currentValue : ℚ) (cashFlows : List (ℤ × ℚ))
    (period : String) (startDate : Option ℤ) (endDate : ℤ) : BenchResult :=
  let periodCfs :=
    match startDate with
    | some s => cashFlows.filter (fun cf => decide (s ≤ cf.1))
    | none => cashFlows
  if periodCfs = [] then emptyBenchResult symbol period
  else if ¬priceDataOk then emptyBenchResult symbol period
  else
    let xirrV := calcBenchmarkXirr solver periodCfs endDate currentValue
    ⟨symbol, period, ⟨cagrV, xirrV, twrV, xirrV⟩⟩

/-! ## Concentration (`PortfolioAdvanceRiskMetricsService`) -/

/-- Market-value weights of the current holdings:
`current_value / total_portfolio_value` per holding. -/
def assetWeights (values : List ℚ) : List ℚ :=
  values.map (fun v => v / values.sum)

/-- `_calculate_concentration_risk`: the sum of squared weights, `none`
for an empty weight vector. -/
def hhi (weights : List ℚ) : Option ℚ :=
  if weights = [] then none
  else some ((weights.map (fun w => w ^ 2)).sum)

/-- `effective_assets = 1 / concentration_risk if concentration_risk and
concentration_risk > 0 else None`. -/
def effectiveAssets (concentration : Option ℚ) : Option ℚ :=
  match concentration with
  | some c => if 0 < c then some (1 / c) else none
  | none => none

/-! # Theorems -/

/-- C8: for every base date, each of the eight supported period tokens is
derived deterministically by calendar month/year offsets — "3m"/"6m" via
month subtraction, "1y"–"5y" via year subtraction, "ytd" as January 1 of
the base year, "inception" as no start date — any unknown token raises a
typed error instead of returning a date, and the offsets are
calendar-correct rather than fixed day counts (2024-03-31 minus 3 months
is 2023-12-31, 2024-02-29 minus 1 year clamps to 2023-02-28, 2024-08-31
minus 6 months clamps to 2024-02-29). -/
theorem c8_period_token_start_dates :
    (∀ d : Date,
      getStartDate "3m" d = .ok (some (subMonths d 3)) ∧
      getStartDate "6m" d = .ok (some (subMonths d 6)) ∧
      getStartDate "1y" d = .ok (some (subYears d 1)) ∧
      getStartDate "2y" d = .ok (some (subYears d 2)) ∧
      getStartDate "3y" d = .ok (some (subYears d 3)) ∧
      getStartDate "5y" d = .ok (some (subYears d 5)) ∧
      getStartDate "ytd" d = .ok (some ⟨d.year, 1, 1⟩) ∧
      getStartDate "inception" d = .ok none) ∧
    (∀ (p : String) (d : Date), p ∉ periodTokens →
      getStartDate p d = .error ("Unknown period type: " ++ p)) ∧
    getStartDate "3m" ⟨2024, 3, 31⟩ = .ok (some ⟨2023, 12, 31⟩) ∧
    getStartDate "1y" ⟨2024, 2, 29⟩ = .ok (some ⟨2023, 2, 28⟩) ∧
    getStartDate "6m" ⟨2024, 8, 31⟩ = .ok (some ⟨2024, 2, 29⟩) := by
  refine ⟨fun d => ?_, fun p d hp => ?_, by rfl, by rfl, by rfl⟩
  · refine ⟨rfl, rfl, rfl, rfl, rfl, rfl, rfl, rfl⟩
  · simp only [periodTokens, List.mem_cons, List.not_mem_nil, or_false,
      not_or] at hp
    obtain ⟨h1, h2, h3, h4, h5, h6, h7, h8⟩ := hp
    simp [getStartDate, h1, h2, h3, h4, h5, h6, h7, h8]

/-- C8 witness: the unknown-token clause applied at the concrete token
"7d", and the universally quantified clause at a concrete base date. -/
theorem c8_period_token_start_dates_witness :
    getStartDate "7d" ⟨2024, 5, 17⟩ = .error ("Unknown period type: " ++ "7d") ∧
    getStartDate "ytd" ⟨2024, 5, 17⟩ = .ok (some ⟨2024, 1, 1⟩) :=
  ⟨c8_period_token_start_dates.2.1 "7d" ⟨2024, 5, 17⟩ (by decide),
   (c8_period_token_start_dates.1 ⟨2024, 5, 17⟩).2.2.2.2.2.2.1⟩

/-- C2 counterexample: with beginning value 100, ending value 110 and an
elapsed period of 0 days (e.g. a "ytd" request on January 1, or an
inception request on the day of the first transaction), `_calculate_cagr`
returns 0 while the claim's formula `total_return = 110/100 - 1` demands
10 percent. -/
theorem c2_cagr_zero_days_counterexample :
    calcCagr (fun a _ => a) 100 110 0 = some 0 ∧
    ((110 : ℚ) / 100 - 1) * 100 = 10 ∧ (0 : ℚ) ≠ 10 := by
  refine ⟨by norm_num [calcCagr], by norm_num, by norm_num⟩

/-- C2 (amended): `_calculate_cagr` returns null when the beginning value
is zero or negative; otherwise −100 (total loss) when the ending value is
negative; otherwise, *when the elapsed period is positive*, the simple
total return `end/begin − 1` (as a percentage) for periods of at most one
year and the annualized `(1+total_return)^(365.25/days) − 1` for periods
exceeding one year (`pw` standing for Python's float power); a
non-positive elapsed period yields 0, not the simple total return. -/
theorem c2_cagr_amended (pw : ℚ → ℚ → ℚ) (beginningValue currentValue : ℚ)
    (days : ℤ) :
    (beginningValue ≤ 0 → calcCagr pw beginningValue currentValue days = none) ∧
    (0 < beginningValue → currentValue < 0 →
      calcCagr pw beginningValue currentValue days = some (-100)) ∧
    (0 < beginningValue → 0 ≤ currentValue → days ≤ 0 →
      calcCagr pw beginningValue currentValue days = some 0) ∧
    (0 < beginningValue → 0 ≤ currentValue → 0 < days → days ≤ 365 →
      calcCagr pw beginningValue currentValue days
        = some ((currentValue / beginningValue - 1) * 100)) ∧
    (0 < beginningValue → 0 ≤ currentValue → 366 ≤ days →
      calcCagr pw beginningValue currentValue days
        = some ((pw (currentValue / beginningValue)
            (1461 / 4 / (days : ℚ)) - 1) * 100)) := by
  refine ⟨fun hb => ?_, fun hb hc => ?_, fun hb hc hd => ?_,
    fun hb hc hd1 hd2 => ?_, fun hb hc hd => ?_⟩
  · simp [calcCagr, hb]
  · simp [calcCagr, not_le.mpr hb, hc]
  · have hy : ((days : ℚ)) / (1461 / 4) ≤ 0 := by
      apply div_nonpos_of_nonpos_of_nonneg
      · exact_mod_cast hd
      · norm_num
    simp [calcCagr, not_le.mpr hb, not_lt.mpr hc, hy]
  · have hy0 : ¬ ((days : ℚ)) / (1461 / 4) ≤ 0 := by
      rw [not_le]
      apply div_pos
      · exact_mod_cast hd1
      · norm_num
    have hy1 : ¬ (1 : ℚ) < (days : ℚ) / (1461 / 4) := by
      rw [not_lt, div_le_one (by norm_num)]
      calc ((days : ℚ)) ≤ 365 := by exact_mod_cast hd2
        _ ≤ 1461 / 4 := by norm_num
    simp [calcCagr, not_le.mpr hb, not_lt.mpr hc, hy0, hy1]
  · have hdq : (366 : ℚ) ≤ (days : ℚ) := by exact_mod_cast hd
    have hy0 : ¬ ((days : ℚ)) / (1461 / 4) ≤ 0 := by
      rw [not_le]
      apply div_pos (by linarith) (by norm_num)
    have hy1 : (1 : ℚ) < (days : ℚ) / (1461 / 4) := by
      rw [lt_div_iff₀ (by norm_num)]
      linarith
    have hinv : 1 / ((days : ℚ) / (1461 / 4)) = 1461 / 4 / (days : ℚ) := by
      rw [one_div_div]
    have harg : 1 + (currentValue / beginningValue - 1)
        = currentValue / beginningValue := by ring
    simp [calcCagr, not_le.mpr hb, not_lt.mpr hc, hy0, hy1, hinv, harg]

/-- C2 witness: the amended sub-clauses applied at concrete inputs
(beginning 100, ending 110; 200 elapsed days for the simple branch, 730
for the annualized branch with `pw` instantiated to multiplication). -/
theorem c2_cagr_amended_witness :
    calcCagr (fun a b => a * b) 100 110 200
      = some (((110 : ℚ) / 100 - 1) * 100) ∧
    calcCagr (fun a b => a * b) 100 110 730
      = some ((((110 : ℚ) / 100) * (1461 / 4 / (730 : ℚ)) - 1) * 100) :=
  ⟨(c2_cagr_amended (fun a b => a * b) 100 110 200).2.2.2.1
      (by norm_num) (by norm_num) (by norm_num) (by norm_num),
   by
    have h := (c2_cagr_amended (fun a b => a * b) 100 110 730).2.2.2.2
      (by norm_num) (by norm_num) (by norm_num)
    exact_mod_cast h⟩

/-- C3: both `_calculate_xirr` and `_calculate_benchmark_xirr` report a
null metric on every degraded path — a cash-flow list with fewer than two
entries, a list without both a positive and a negative amount, or a
root-finder (`pyxirr.xirr`, abstracted as `solver`) that fails — and the
embedding being a total pure function, no exception escapes and no state
is touched on those paths. -/
theorem c3_xirr_degraded_paths (solver : List (ℤ × ℚ) → Option ℚ)
    (txns : List Txn) (initialValue : ℚ) (startDate : Option ℤ) (endDate : ℤ)
    (currentValue : ℚ) (cashFlows : List (ℤ × ℚ)) :
    ((buildXirrFlows txns initialValue startDate endDate currentValue).length < 2 →
      calcXirr solver txns initialValue startDate endDate currentValue = none) ∧
    (¬(hasPositive (buildXirrFlows txns initialValue startDate endDate currentValue)
        ∧ hasNegative (buildXirrFlows txns initialValue startDate endDate currentValue)) →
      calcXirr solver txns initialValue startDate endDate currentValue = none) ∧
    (solver (buildXirrFlows txns initialValue startDate endDate currentValue) = none →
      calcXirr solver txns initialValue startDate endDate currentValue = none) ∧
    ((cashFlows ++ [(endDate, currentValue)]).length < 2 →
      calcBenchmarkXirr solver cashFlows endDate currentValue = none) ∧
    (¬(hasPositive (cashFlows ++ [(endDate, currentValue)])
        ∧ hasNegative (cashFlows ++ [(endDate, currentValue)])) →
      calcBenchmarkXirr solver cashFlows endDate currentValue = none) ∧
    (solver (cashFlows ++ [(endDate, currentValue)]) = none →
      calcBenchmarkXirr solver cashFlows endDate currentValue = none) := by
  refine ⟨fun h => ?_, fun h => ?_, fun h => ?_,
    fun h => ?_, fun h => ?_, fun h => ?_⟩ <;>
    simp only [calcXirr, calcBenchmarkXirr] <;>
    split_ifs <;>
    simp_all [Bool.not_eq_true', Bool.and_eq_true, Bool.not_eq_true]

/-- C3 witness: the mixed-sign guard at a concrete one-signed flow list
(one SELL inflow plus the terminal inflow), and the non-convergence guard
at a concrete two-signed list with a solver that always fails. -/
theorem c3_xirr_degraded_paths_witness :
    calcXirr (fun _ => some 1) [⟨1, 0, TxnType.sell, 1, 100, 100⟩] 0 none 10 110
      = none ∧
    calcXirr (fun _ => none) [⟨1, 0, TxnType.buy, 1, 100, 100⟩] 0 none 10 110
      = none :=
  ⟨(c3_xirr_degraded_paths (fun _ => some 1) [⟨1, 0, TxnType.sell, 1, 100, 100⟩]
      0 none 10 110 []).2.1
      (by norm_num [buildXirrFlows, hasPositive, hasNegative, txnFlow]),
   (c3_xirr_degraded_paths (fun _ => none) [⟨1, 0, TxnType.buy, 1, 100, 100⟩]
      0 none 10 110 []).2.2.1 rfl⟩

/-- C4: when the measurement period contains no cash-flow dates strictly
inside it, `_calculate_twr` performs no geometric sub-period linking: for
a bounded period with positive beginning valuation it reports the simple
total-period return `end/begin − 1` (as a percentage), and for the
inception period it reports the simple total return over the net invested
amount computed by `_calculate_inception_twr`. -/
theorem c4_twr_no_intermediate_flows (valueAt : ℤ → ℚ) (txns : List Txn)
    (currentValue : ℚ) (s endDate : ℤ) :
    (getCashFlowDates txns (some s) endDate = [] → 0 < valueAt s →
      calcTwr valueAt txns currentValue (some s) endDate
        = some ((currentValue / valueAt s - 1) * 100)) ∧
    (getCashFlowDates txns none endDate = [] → txns ≠ [] →
      0 < netInvestment txns →
      calcTwr valueAt txns currentValue none endDate
        = some ((currentValue / netInvestment txns - 1) * 100)) := by
  constructor
  · intro hcfd hv
    simp [calcTwr, hcfd, not_le.mpr hv]
  · intro hcfd hne hinv
    simp [calcTwr, calcInceptionTwr, hcfd, hne, not_le.mpr hinv]

/-- C4 witness: the bounded clause with a flat 100 valuation and no
transactions, and the inception clause with a single BUY of 100 dated at
the period end (so no strictly-interior cash-flow date exists). -/
theorem c4_twr_no_intermediate_flows_witness :
    calcTwr (fun _ => 100) [] 110 (some 0) 10 = some (((110 : ℚ) / 100 - 1) * 100) ∧
    calcTwr (fun _ => 100) [⟨1, 10, TxnType.buy, 1, 100, 100⟩] 110 none 10
      = some (((110 : ℚ) / netInvestment [⟨1, 10, TxnType.buy, 1, 100, 100⟩] - 1) * 100) :=
  ⟨(c4_twr_no_intermediate_flows (fun _ => 100) [] 110 0 10).1
      (by decide) (by norm_num),
   (c4_twr_no_intermediate_flows (fun _ => 100)
      [⟨1, 10, TxnType.buy, 1, 100, 100⟩] 110 0 10).2
      (by decide) (by decide)
      (by norm_num [netInvestment, List.filter_cons,
        (by decide : TxnType.buy ≠ TxnType.sell)])⟩

/-- C10: whenever a bounded period token derives a start date that the
portfolio's earliest transaction postdates, `calculate_portfolio_performance`
silently substitutes the inception period: the result's `period` field
reports "inception" instead of the requested token, its start date is
`none`, a `period_adjustment` record describing the substitution is
attached, and every metric (on the error-free path the cagr/xirr/twr/mwr/
volatility/max-drawdown computations, on the degraded current-value path
the all-null metrics) is computed from the inception start date `none` —
the requested window is never used. -/
theorem c10_young_portfolio_uses_inception
    (cagrF xirrF twrF volF mddF : Option Date → Option ℚ)
    (valueErrors : List String) (txnDates : List Date) (period : String)
    (endDate : Date) (s : Date)
    (hs : getStartDate period endDate = .ok (some s))
    (hne : txnDates ≠ [])
    (hyoung : dateLt s (firstTxnDate txnDates) = true) :
    calcPortfolioPerformance cagrF xirrF twrF volF mddF true valueErrors
        txnDates period endDate
      = .ok { period := "inception", startDate := none,
              adjustment := some ⟨period, dayNumber endDate - dayNumber s,
                dayNumber endDate - dayNumber (firstTxnDate txnDates)⟩,
              metrics :=
                if valueErrors = [] then
                  ⟨cagrF none, xirrF none, twrF none, xirrF none,
                   volF none, mddF none⟩
                else emptyMetrics,
              errors := valueErrors } := by
  rw [calcPortfolioPerformance, hs]
  by_cases hve : valueErrors = [] <;>
    simp [hne, hve, hyoung]

/-- C10 witness: a "1y" request on 2024-06-01 against a portfolio whose
only transaction is dated 2024-03-01 is answered from inception, with the
adjustment record attached. -/
theorem c10_young_portfolio_uses_inception_witness :
    calcPortfolioPerformance (fun _ => some 1) (fun _ => some 2)
        (fun _ => some 3) (fun _ => some 4) (fun _ => some 5) true []
        [⟨2024, 3, 1⟩] "1y" ⟨2024, 6, 1⟩
      = .ok { period := "inception", startDate := none,
              adjustment := some ⟨"1y",
                dayNumber ⟨2024, 6, 1⟩ - dayNumber ⟨2023, 6, 1⟩,
                dayNumber ⟨2024, 6, 1⟩ - dayNumber (firstTxnDate [⟨2024, 3, 1⟩])⟩,
              metrics := ⟨some 1, some 2, some 3, some 2, some 4, some 5⟩,
              errors := [] } := by
  have h := c10_young_portfolio_uses_inception (fun _ => some 1) (fun _ => some 2)
    (fun _ => some 3) (fun _ => some 4) (fun _ => some 5) [] [⟨2024, 3, 1⟩]
    "1y" ⟨2024, 6, 1⟩ ⟨2023, 6, 1⟩ (by rfl) (by decide) (by decide)
  simpa using h

/-- C5: in every portfolio performance result the service can return and
in every benchmark performance result, the reported `mwr` metric is the
very `xirr` value of the same result (MWR is an alias of XIRR), on the
normal path as well as on the empty-ledger, degraded-value, empty-flows
and missing-price paths — in particular `mwr` is null exactly when `xirr`
is. -/
theorem c5_mwr_aliases_xirr
    (cagrF xirrF twrF volF mddF : Option Date → Option ℚ)
    (portfolioFound : Bool) (valueErrors : List String) (txnDates : List Date)
    (period : String) (endDate : Date) (symbol : String)
    (solver : List (ℤ × ℚ) → Option ℚ) (cagrV twrV : Option ℚ)
    (priceDataOk : Bool) (currentValue : ℚ) (cashFlows : List (ℤ × ℚ))
    (startDay : Option ℤ) (endDay : ℤ) :
    (∀ r : PerfResult,
      calcPortfolioPerformance cagrF xirrF twrF volF mddF portfolioFound
          valueErrors txnDates period endDate = .ok r →
      r.metrics.mwr = r.metrics.xirr) ∧
    (calcBenchmarkPerformance symbol solver cagrV twrV priceDataOk
        currentValue cashFlows period startDay endDay).metrics.mwr
      = (calcBenchmarkPerformance symbol solver cagrV twrV priceDataOk
        currentValue cashFlows period startDay endDay).metrics.xirr := by
  constructor
  · intro r hr
    rw [calcPortfolioPerformance] at hr
    cases hsd : getStartDate period endDate with
    | error e => rw [hsd] at hr; exact absurd hr (by simp)
    | ok sd =>
      rw [hsd] at hr
      by_cases hpf : portfolioFound <;>
        by_cases hte : txnDates = [] <;>
          by_cases hve : valueErrors = [] <;>
            simp only [hpf, hte, hve, not_true, not_false_iff, if_true,
              if_false, ite_true, ite_false, not_false_eq_true,
              Bool.not_eq_true, reduceIte, ne_eq] at hr <;>
        first
          | (injection hr with hr2; subst hr2; rfl)
          | exact absurd hr (by simp)
  · simp only [calcBenchmarkPerformance]
    split_ifs <;> rfl

/-- C5 witness: the portfolio clause applied to the concrete result of a
concrete error-free inception request. -/
theorem c5_mwr_aliases_xirr_witness :
    ({ period := "inception", startDate := none, adjustment := none,
       metrics := ⟨some 1, some 2, some 3, some 2, some 4, some 5⟩,
       errors := [] } : PerfResult).metrics.mwr
      = ({ period := "inception", startDate := none, adjustment := none,
           metrics := ⟨some 1, some 2, some 3, some 2, some 4, some 5⟩,
           errors := [] } : PerfResult).metrics.xirr :=
  (c5_mwr_aliases_xirr (fun _ => some 1) (fun _ => some 2) (fun _ => some 3)
    (fun _ => some 4) (fun _ => some 5) true [] [⟨2024, 3, 1⟩] "inception"
    ⟨2024, 6, 1⟩ "^GSPC" (fun _ => none) none none true 0 [] none 0).1
    _ (by rfl)

/-- Invariant of the inner FIFO loop: when every open lot has positive
remaining quantity, the loop preserves that, and cost moves exactly from
the lots into the consumed-cost accumulator (proportional partial
consumption never creates or destroys cost basis). -/
theorem sellAgainstLots_cost_conservation (sp : ℚ) :
    ∀ (lots : List BuyLot) (sq pnl costSold : ℚ),
      (∀ l ∈ lots, 0 < l.qty) →
      (∀ l ∈ (sellAgainstLots sp sq lots pnl costSold).lots, 0 < l.qty) ∧
      (sellAgainstLots sp sq lots pnl costSold).costSold
          + remainingCost (sellAgainstLots sp sq lots pnl costSold).lots
        = costSold + remainingCost lots := by
  intro lots
  induction lots with
  | nil =>
    intro sq pnl costSold h
    exact ⟨by simp [sellAgainstLots], by simp [sellAgainstLots]⟩
  | cons lot rest ih =>
    intro sq pnl costSold h
    have hlot : 0 < lot.qty := h lot (List.mem_cons_self _ _)
    have hrest : ∀ l ∈ rest, 0 < l.qty := fun l hl => h l (List.mem_cons_of_mem _ hl)
    by_cases hsq : sq ≤ 0
    · rw [sellAgainstLots, if_pos hsq]
      exact ⟨h, rfl⟩
    · rw [sellAgainstLots, if_neg hsq, if_neg (not_le.mpr hlot)]
      by_cases hdone : lot.qty - min sq lot.qty ≤ 0
      · rw [if_pos hdone]
        have hm : min sq lot.qty = lot.qty :=
          le_antisymm (min_le_right _ _) (by linarith)
        have hcp : min sq lot.qty / lot.qty * lot.totalAmount = lot.totalAmount := by
          rw [hm, div_self (ne_of_gt hlot), one_mul]
        obtain ⟨h1, h2⟩ := ih (sq - min sq lot.qty)
          (pnl + (min sq lot.qty * sp - min sq lot.qty / lot.qty * lot.totalAmount))
          (costSold + min sq lot.qty / lot.qty * lot.totalAmount) hrest
        refine ⟨h1, ?_⟩
        rw [h2, hcp]
        simp only [remainingCost, List.map_cons, List.sum_cons]
        ring
      · rw [if_neg hdone]
        constructor
        · intro l hl
          rcases List.mem_cons.mp hl with rfl | hl
          · simpa using not_le.mp hdone
          · exact hrest l hl
        · simp only [remainingCost, List.map_cons, List.sum_cons]
          ring

/-- The outer loop accumulates the inner loop's conservation invariant
over all SELL transactions. -/
theorem processSells_cost_conservation :
    ∀ (sells : List SellTx) (st : FifoState),
      (∀ l ∈ st.lots, 0 < l.qty) →
      (∀ l ∈ (processSells sells st).lots, 0 < l.qty) ∧
      (processSells sells st).costSold
          + remainingCost (processSells sells st).lots
        = st.costSold + remainingCost st.lots := by
  intro sells
  induction sells with
  | nil => intro st h; exact ⟨h, rfl⟩
  | cons s ss ih =>
    intro st h
    have hstep : processSells (s :: ss) st
        = processSells ss (sellAgainstLots s.price s.qty st.lots st.pnl st.costSold) :=
      rfl
    obtain ⟨h1, h2⟩ :=
      sellAgainstLots_cost_conservation s.price st.lots s.qty st.pnl st.costSold h
    obtain ⟨h3, h4⟩ := ih (sellAgainstLots s.price s.qty st.lots st.pnl st.costSold) h1
    rw [hstep]
    exact ⟨h3, h4.trans h2⟩

/-- Per-sale decomposition of the FIFO loop's realized P&L: the P&L added
by one sale is (matched quantity) × (sale price) minus the consumed cost
basis added by that sale, for some matched quantity between 0 and the
quantity sold. -/
theorem sellAgainstLots_pnl_decomposition (sp : ℚ) :
    ∀ (lots : List BuyLot) (sq pnl costSold : ℚ),
      ∃ m : ℚ, 0 ≤ m ∧ m ≤ max sq 0 ∧
        (sellAgainstLots sp sq lots pnl costSold).pnl
          = pnl + m * sp
            - ((sellAgainstLots sp sq lots pnl costSold).costSold - costSold) := by
  intro lots
  induction lots with
  | nil =>
    intro sq pnl costSold
    exact ⟨0, le_refl 0, le_max_right _ _, by simp [sellAgainstLots]⟩
  | cons lot rest ih =>
    intro sq pnl costSold
    by_cases hsq : sq ≤ 0
    · exact ⟨0, le_refl 0, le_max_right _ _, by rw [sellAgainstLots, if_pos hsq]; ring⟩
    · have hsq' : 0 < sq := not_le.mp hsq
      have hmax : max sq 0 = sq := max_eq_left hsq'.le
      by_cases hq : lot.qty ≤ 0
      · obtain ⟨m, hm0, hmle, hEq⟩ := ih sq pnl costSold
        exact ⟨m, hm0, hmle, by rw [sellAgainstLots, if_neg hsq, if_pos hq]; exact hEq⟩
      · have hq' : 0 < lot.qty := not_le.mp hq
        have hm0 : 0 < min sq lot.qty := lt_min hsq' hq'
        by_cases hdone : lot.qty - min sq lot.qty ≤ 0
        · obtain ⟨m, hm0', hmle, hEq⟩ := ih (sq - min sq lot.qty)
            (pnl + (min sq lot.qty * sp - min sq lot.qty / lot.qty * lot.totalAmount))
            (costSold + min sq lot.qty / lot.qty * lot.totalAmount)
          refine ⟨min sq lot.qty + m, by linarith, ?_, ?_⟩
          · have hrem : max (sq - min sq lot.qty) 0 = sq - min sq lot.qty :=
              max_eq_left (by simp [min_le_left])
            rw [hmax]
            rw [hrem] at hmle
            have := min_le_left sq lot.qty
            linarith
          · rw [sellAgainstLots, if_neg hsq, if_neg hq, if_pos hdone]
            rw [hEq]
            ring
        · refine ⟨min sq lot.qty, hm0.le, ?_, ?_⟩
          · rw [hmax]; exact min_le_left _ _
          · rw [sellAgainstLots, if_neg hsq, if_neg hq, if_neg hdone]
            ring

/-- C1: realized P&L is computed by FIFO over the date-ordered ledger —
cost basis is conserved by proportional lot consumption (consumed cost
plus the remaining lots' cost equals the original lots' cost), each
sale's realized P&L is its matched proceeds minus the consumed cost
basis, and on the ledger "buy 100 units at price 100 (total 10000), later
sell 50 units at price 120" the realized P&L is 1000 (percent 20) while
the remaining holding's cost basis is 5000. -/
theorem c1_fifo_realized_pnl :
    (∀ (buys : List BuyLot) (sells : List SellTx),
      (∀ l ∈ buys, 0 < l.qty) →
      (fifoFinalState buys sells).costSold
          + remainingCost (fifoFinalState buys sells).lots
        = remainingCost buys) ∧
    (∀ (sp sq pnl costSold : ℚ) (lots : List BuyLot),
      ∃ m : ℚ, 0 ≤ m ∧ m ≤ max sq 0 ∧
        (sellAgainstLots sp sq lots pnl costSold).pnl
          = pnl + m * sp
            - ((sellAgainstLots sp sq lots pnl costSold).costSold - costSold)) ∧
    calcRealizedPnl [⟨100, 10000⟩] [⟨50, 120⟩] = (1000, 20) ∧
    remainingCost (fifoFinalState [⟨100, 10000⟩] [⟨50, 120⟩]).lots = 5000 := by
  refine ⟨fun buys sells h => ?_, fun sp sq pnl costSold lots => ?_, ?_, ?_⟩
  · have := (processSells_cost_conservation sells ⟨buys, 0, 0⟩ h).2
    simpa [fifoFinalState] using this
  · exact sellAgainstLots_pnl_decomposition sp lots sq pnl costSold
  · norm_num [calcRealizedPnl, processSells, sellAgainstLots, remainingCost,
      min_def]
  · norm_num [fifoFinalState, processSells, sellAgainstLots, remainingCost,
      min_def]

/-- C1 witness: the conservation clause evaluated on the concrete
buy-100-sell-50 ledger (consumed cost 5000 plus remaining cost 5000
equals the original 10000), and the per-sale decomposition at that
sale. -/
theorem c1_fifo_realized_pnl_witness :
    (fifoFinalState [⟨100, 10000⟩] [⟨50, 120⟩]).costSold
        + remainingCost (fifoFinalState [⟨100, 10000⟩] [⟨50, 120⟩]).lots
      = remainingCost [⟨100, 10000⟩] :=
  c1_fifo_realized_pnl.1 [⟨100, 10000⟩] [⟨50, 120⟩]
    (by intro l hl; rw [List.mem_singleton] at hl; subst hl; norm_num)

/-- C9 counterexample: `calculate_advanced_metrics` builds weights as
`current_value / total` with no sign guard, so the holding-value vector
(2, −1) — total 1 — yields weights (2, −1) and an HHI of 5, outside the
claimed interval (0, 1]. -/
theorem c9_hhi_counterexample :
    hhi (assetWeights [2, -1]) = some 5 ∧ ¬((5 : ℚ) ≤ 1) := by
  constructor
  · have h1 : assetWeights [2, -1] = [2, -1] := by norm_num [assetWeights]
    rw [h1, hhi, if_neg (by simp)]
    norm_num
  · norm_num

/-- C9 (amended): for every non-empty current-holdings value vector with
*non-negative* values and positive total, the concentration metric is the
sum of squared weights w_i = value_i / total, it lies in (0, 1], the
reported effective number of assets is its reciprocal 1/HHI, a
single-asset portfolio has HHI exactly 1, and n equally-valued assets
have HHI exactly 1/n. -/
theorem c9_hhi_amended (values : List ℚ) (hne : values ≠ [])
    (hnn : ∀ v ∈ values, 0 ≤ v) (hsum : 0 < values.sum) :
    (∃ H, hhi (assetWeights values) = some H ∧
      H = ((assetWeights values).map (fun w => w ^ 2)).sum ∧
      0 < H ∧ H ≤ 1 ∧
      effectiveAssets (hhi (assetWeights values)) = some (1 / H)) ∧
    (∀ v : ℚ, 0 < v → hhi (assetWeights [v]) = some 1) ∧
    (∀ (n : ℕ) (v : ℚ), 0 < n → 0 < v →
      hhi (assetWeights (List.replicate n v)) = some (1 / (n : ℚ))) := by
  refine ⟨?_, fun v hv => ?_, fun n v hn hv => ?_⟩
  · have hS0 : values.sum ≠ 0 := ne_of_gt hsum
    have hwne : assetWeights values ≠ [] := by
      simp [assetWeights, hne]
    have hwsum : (assetWeights values).sum = 1 := by
      have h1 : (values.map (fun v => v * (values.sum)⁻¹)).sum
          = (values.map id).sum * (values.sum)⁻¹ :=
        List.sum_map_mul_right values id _
      rw [assetWeights]
      simp only [div_eq_mul_inv]
      rw [h1, List.map_id, mul_inv_cancel₀ hS0]
    have hwnn : ∀ w ∈ assetWeights values, 0 ≤ w := by
      intro w hw
      obtain ⟨u, hu, rfl⟩ := List.mem_map.mp hw
      exact div_nonneg (hnn u hu) hsum.le
    have hsqnn : ∀ x ∈ (assetWeights values).map (fun w => w ^ 2), 0 ≤ x := by
      intro x hx
      obtain ⟨w, _, rfl⟩ := List.mem_map.mp hx
      exact sq_nonneg w
    have hex : ∃ u ∈ values, 0 < u := by
      have h := List.exists_lt_of_sum_lt (l := values)
        (fun _ => (0 : ℚ)) id (by simpa using hsum)
      simpa using h
    have hHpos : 0 < ((assetWeights values).map (fun w => w ^ 2)).sum := by
      obtain ⟨u, humem, hupos⟩ := hex
      have hwmem : u / values.sum ∈ assetWeights values :=
        List.mem_map.mpr ⟨u, humem, rfl⟩
      have hterm : (u / values.sum) ^ 2
          ≤ ((assetWeights values).map (fun w => w ^ 2)).sum :=
        List.single_le_sum hsqnn _ (List.mem_map.mpr ⟨_, hwmem, rfl⟩)
      have hwpos : 0 < u / values.sum := div_pos hupos hsum
      nlinarith
    have hHle : ((assetWeights values).map (fun w => w ^ 2)).sum ≤ 1 := by
      have hpair : ∀ w ∈ assetWeights values, w ^ 2 ≤ w := by
        intro w hw
        have h0 : 0 ≤ w := hwnn w hw
        have h1 : w ≤ 1 := by
          obtain ⟨u, hu, rfl⟩ := List.mem_map.mp hw
          rw [div_le_one hsum]
          exact List.single_le_sum hnn _ hu
        nlinarith
      calc ((assetWeights values).map (fun w => w ^ 2)).sum
          ≤ ((assetWeights values).map id).sum :=
            List.sum_le_sum fun w hw => hpair w hw
        _ = 1 := by rw [List.map_id, hwsum]
    refine ⟨((assetWeights values).map (fun w => w ^ 2)).sum,
      by rw [hhi, if_neg hwne], rfl, hHpos, hHle, ?_⟩
    rw [hhi, if_neg hwne]
    simp [effectiveAssets, hHpos]
  · have hv0 : v ≠ 0 := ne_of_gt hv
    norm_num [hhi, assetWeights, div_self hv0]
  · have hn0 : (n : ℚ) ≠ 0 := Nat.cast_ne_zero.mpr hn.ne'
    have hv0 : v ≠ 0 := ne_of_gt hv
    have hsumr : (List.replicate n v).sum = (n : ℚ) * v := by
      rw [List.sum_replicate, nsmul_eq_mul]
    have hw : v / ((n : ℚ) * v) = (n : ℚ)⁻¹ := by
      rw [mul_comm, div_mul_eq_div_div, div_self hv0, one_div]
    have hmapw : assetWeights (List.replicate n v)
        = List.replicate n ((n : ℚ)⁻¹) := by
      rw [assetWeights, hsumr, List.map_replicate, hw]
    have hne' : List.replicate n ((n : ℚ)⁻¹) ≠ [] := by
      rw [Ne, List.replicate_eq_nil_iff]
      exact hn.ne'
    rw [hmapw, hhi, if_neg hne', List.map_replicate, List.sum_replicate,
      nsmul_eq_mul]
    have hval : (n : ℚ) * ((n : ℚ)⁻¹) ^ 2 = 1 / (n : ℚ) := by
      field_simp
      ring
    rw [hval]

/-- C9 witness: the amended clauses applied to the concrete three-asset
equally-weighted value vector (3, 3, 3). -/
theorem c9_hhi_amended_witness :
    ∃ H, hhi (assetWeights [3, 3, 3]) = some H ∧
      H = ((assetWeights [3, 3, 3]).map (fun w => w ^ 2)).sum ∧
      0 < H ∧ H ≤ 1 ∧
      effectiveAssets (hhi (assetWeights [3, 3, 3])) = some (1 / H) :=
  (c9_hhi_amended [3, 3, 3] (by simp)
    (by intro v hv; simp at hv; subst hv; norm_num)
    (by norm_num)).1

/-- The day-by-day walk emits exactly the arithmetic progression of
calendar days it was started on: one point per day, in order, no gaps. -/
theorem historyWalk_dates (priceOf : ℕ → ℤ → Option ℚ) (ids : List ℕ)
    (txnsOn : ℤ → List Txn) :
    ∀ (n : ℕ) (d : ℤ) (h : ℕ → ℚ),
      (historyWalk priceOf ids txnsOn n d h).map Prod.fst
        = (List.range n).map (fun (i : ℕ) => d + (i : ℤ)) := by
  intro n
  induction n with
  | zero => intro d h; simp [historyWalk]
  | succ n ih =>
    intro d h
    rw [historyWalk]
    simp only [List.map_cons, ih, List.range_succ_eq_map, List.map_map]
    congr 1
    · simp
    · apply List.map_congr_left
      intro i _
      simp only [Function.comp_apply]
      push_cast
      ring

/-- A day's valuation is non-negative whenever every looked-up price is:
only positions above the dust threshold are valued, at a skipped (missing
or zero) price or a non-negative one. -/
theorem dayValue_nonneg (priceOf : ℕ → ℤ → Option ℚ) (ids : List ℕ)
    (h : ℕ → ℚ) (d : ℤ)
    (hpr : ∀ a day p, priceOf a day = some p → 0 ≤ p) :
    0 ≤ dayValue priceOf ids h d := by
  apply List.sum_nonneg
  intro x hx
  obtain ⟨a, _, rfl⟩ := List.mem_map.mp hx
  by_cases hha : eps < h a
  · have hha0 : 0 ≤ h a := le_of_lt (lt_trans (by norm_num [eps]) hha)
    simp only [if_pos hha]
    cases hp : priceOf a d with
    | none => simp
    | some p =>
      by_cases hp0 : p = 0
      · simp [hp0]
      · simp only [if_neg hp0]
        exact mul_nonneg hha0 (hpr a d p hp)
  · simp [hha]

/-- Every value the walk emits is non-negative under non-negative
prices. -/
theorem historyWalk_values_nonneg (priceOf : ℕ → ℤ → Option ℚ)
    (ids : List ℕ) (txnsOn : ℤ → List Txn)
    (hpr : ∀ a day p, priceOf a day = some p → 0 ≤ p) :
    ∀ (n : ℕ) (d : ℤ) (h : ℕ → ℚ),
      ∀ x ∈ historyWalk priceOf ids txnsOn n d h, 0 ≤ x.2 := by
  intro n
  induction n with
  | zero => intro d h x hx; simp [historyWalk] at hx
  | succ n ih =>
    intro d h x hx
    rw [historyWalk] at hx
    rcases List.mem_cons.mp hx with rfl | hx
    · exact dayValue_nonneg priceOf ids _ d hpr
    · exact ih _ _ x hx

/-- C6 counterexample: the day-loop guard `if price:` admits a negative
close (only `None`/`0` are skipped), so a one-BUY ledger valued against a
price series that returns −5 produces a daily point with a negative
portfolio value. -/
theorem c6_negative_price_counterexample :
    portfolioHistory (fun _ _ => some (-5)) [⟨1, 0, TxnType.buy, 1, 100, 100⟩]
        none 0
      = some [(0, -5)] ∧ ((-5 : ℚ) < 0) := by
  constructor
  · have hrs : resolvedStart [⟨1, 0, TxnType.buy, 1, 100, 100⟩] none = 0 := by
      norm_num [resolvedStart]
    rw [portfolioHistory, if_neg (by simp), hrs]
    norm_num [historyWalk, holdingsUpTo, dayValue, assetIds,
      applyTxnToHoldings, eps, List.filter_cons]
  · norm_num

/-- C6 (amended): for every valuation-history request with a non-empty
transaction list and resolved period start ≤ end date, the produced daily
series has exactly one point per calendar day from the period start to
the end date inclusive, in strictly increasing order with no gaps (an
arithmetic progression of consecutive days), and — provided every price
the lookup returns is non-negative — every point's portfolio value
is ≥ 0. -/
theorem c6_history_daily_grid_amended (priceOf : ℕ → ℤ → Option ℚ)
    (txns : List Txn) (startDate : Option ℤ) (endDate : ℤ)
    (hne : txns ≠ [])
    (hle : resolvedStart txns startDate ≤ endDate) :
    ∃ pts : List (ℤ × ℚ),
      portfolioHistory priceOf txns startDate endDate = some pts ∧
      pts.map Prod.fst
        = (List.range ((endDate - resolvedStart txns startDate).toNat + 1)).map
            (fun (i : ℕ) => resolvedStart txns startDate + (i : ℤ)) ∧
      ((∀ a day p, priceOf a day = some p → 0 ≤ p) → ∀ x ∈ pts, 0 ≤ x.2) := by
  refine ⟨historyWalk priceOf (assetIds txns)
      (fun d => txns.filter (fun (t : Txn) => decide (t.date = d)))
      ((endDate - resolvedStart txns startDate).toNat + 1)
      (resolvedStart txns startDate)
      (holdingsUpTo txns (resolvedStart txns startDate - 1)), ?_, ?_, ?_⟩
  · rw [portfolioHistory, if_neg hne, if_neg (not_lt.mpr hle)]
  · exact historyWalk_dates _ _ _ _ _ _
  · intro hpr x hx
    exact historyWalk_values_nonneg _ _ _ hpr _ _ _ x hx

/-- C6 witness: the amended theorem applied to a one-BUY ledger with a
constant price of 10 over the three-day window 0..2. -/
theorem c6_history_daily_grid_amended_witness :
    ∃ pts : List (ℤ × ℚ),
      portfolioHistory (fun _ _ => some 10) [⟨1, 0, TxnType.buy, 3, 100, 300⟩]
          none 2 = some pts ∧
      pts.map Prod.fst
        = (List.range ((2 - resolvedStart [⟨1, 0, TxnType.buy, 3, 100, 300⟩] none).toNat + 1)).map
            (fun (i : ℕ) => resolvedStart [⟨1, 0, TxnType.buy, 3, 100, 300⟩] none + (i : ℤ)) ∧
      ((∀ (_a : ℕ) (_day : ℤ) (p : ℚ), some (10 : ℚ) = some p → 0 ≤ p) →
        ∀ x ∈ pts, 0 ≤ x.2) :=
  c6_history_daily_grid_amended (fun _ _ => some 10)
    [⟨1, 0, TxnType.buy, 3, 100, 300⟩] none 2 (by simp)
    (by norm_num [resolvedStart])

/-- C7 counterexample: for the three-day history with values
(100, 110, 121) and a 10-unit net cash flow on the second day, the
calculation-service volatility site (plain `pct_change` returns
(0.1, 0.1)) reports zero volatility, while the claimed cash-flow-adjusted
return series (0, 0.1) has strictly positive variance — the squared
annualized volatilities are 0 versus 12600, so the claimed definition of
r_t is not the one used at that site. -/
theorem c7_volatility_counterexample :
    calcServiceVolSq ([((100 : ℚ), (0 : ℚ)), (110, 10), (121, 0)].map Prod.fst)
      = some 0 ∧
    riskServiceVolSq [((100 : ℚ), (0 : ℚ)), (110, 10), (121, 0)] = some 12600 ∧
    (0 : ℚ) ≠ 12600 := by
  refine ⟨?_, ?_, by norm_num⟩
  · norm_num [calcServiceVolSq, pctChangeReturns, sampleVariance]
  · norm_num [riskServiceVolSq, adjustedDailyReturns, sampleVariance,
      List.filterMap_cons]

/-- C7 (amended): both volatility sites annualize as
stdev(returns) × √252 (× 100, stated here on squares to stay in ℚ), but
they use different return series — the risk-metrics service derives
r_t = value_t / (value_{t-1} + netCashFlow_t) − 1 with the non-finite
entries of zero-denominator days dropped, while the
portfolio-calculation service uses the unadjusted
r_t = value_t / value_{t-1} − 1 of `pct_change` with no cash-flow
adjustment. -/
theorem c7_volatility_sites_amended (hist : List (ℚ × ℚ)) (values : List ℚ) :
    (2 ≤ (adjustedDailyReturns hist).length →
      riskServiceVolSq hist
        = some (sampleVariance (adjustedDailyReturns hist) * 252 * 10000)) ∧
    (2 ≤ values.length →
      calcServiceVolSq values
        = some (sampleVariance (pctChangeReturns values) * 252 * 10000)) := by
  constructor
  · intro h
    rw [riskServiceVolSq, if_neg (by omega)]
  · intro h
    have hlen : (pctChangeReturns values).length = values.length - 1 := by
      simp only [pctChangeReturns, List.length_map, List.length_zip,
        List.length_tail]
      omega
    have hne : pctChangeReturns values ≠ [] := by
      have : 0 < (pctChangeReturns values).length := by omega
      exact List.length_pos.mp this
    rw [calcServiceVolSq, if_neg (by omega), if_neg hne]

/-- C7 witness: the amended clauses applied to the concrete history used
in the counterexample. -/
theorem c7_volatility_sites_amended_witness :
    riskServiceVolSq [((100 : ℚ), (0 : ℚ)), (110, 10), (121, 0)]
      = some (sampleVariance
          (adjustedDailyReturns [((100 : ℚ), (0 : ℚ)), (110, 10), (121, 0)])
          * 252 * 10000) ∧
    calcServiceVolSq [(100 : ℚ), 110, 121]
      = some (sampleVariance (pctChangeReturns [(100 : ℚ), 110, 121])
          * 252 * 10000) :=
  ⟨(c7_volatility_sites_amended [((100 : ℚ), (0 : ℚ)), (110, 10), (121, 0)]
      [(100 : ℚ), 110, 121]).1
      (by norm_num [adjustedDailyReturns, List.filterMap_cons]),
   (c7_volatility_sites_amended [((100 : ℚ), (0 : ℚ)), (110, 10), (121, 0)]
      [(100 : ℚ), 110, 121]).2
      (by norm_num)⟩

end Portfolia
